import Mathlib

/-!
# Image options of the QR-code renderer (`image_option_api.go`)

A shallow embedding of the option constructors `WithBgColor`, ...,
`WithCustomImageEncoder` and of `funcOption.apply`.

Go mutates the options record through a pointer and the colour table
`_stateToRGBA` through a package-level variable; here both live in one explicit
state `Env`, together with the text written by `fmt.Printf`.  A Go `panic` is an
explicit outcome that carries the state reached when it was raised.  Two options
can panic: `WithBuiltinImageEncoder` in the default case of its switch, and the
hex-string colour options inside `hexToRGBA`, on a string it does not parse.
-/

namespace QRCode

/-! ## Types declared outside `image_option_api.go` -/

/-- Modelled from the spec: `matrix.State`, the cell states that key the colour
table ("background/unset", "foreground/set", "finder-pattern marker"); the type
is declared in the imported `matrix` package. -/
inductive State where
  | StateFalse
  | StateTrue
  | StateFinder
  deriving DecidableEq, Repr

/-- Modelled from the spec: a `color.Color` interface value, either the nil
interface or a colour of four 8-bit channels (red, green, blue, alpha). -/
inductive Color where
  | nil
  | rgba (r g b a : Fin 256)
  deriving DecidableEq, Repr

/-- Modelled from the spec: an `image.Image` interface value, either the nil
interface (no logo) or a bitmap, identified by a number. -/
inductive Image where
  | nil
  | bitmap (id : Nat)
  deriving DecidableEq, Repr

/-- Modelled from the spec: an `IShape` interface value: nil, one of the two
built-in shapes `rectangle` and `circle`, or a caller-supplied implementation,
identified by a number. -/
inductive IShape where
  | nil
  | rectangle
  | circle
  | custom (id : Nat)
  deriving DecidableEq, Repr

/-- Modelled from the spec: an `ImageEncoder` interface value: nil, one of the
built-in encoders `jpegEncoder{}` and `pngEncoder{}`, or a caller-supplied
implementation, identified by a number. -/
inductive ImageEncoder where
  | nil
  | jpegEncoder
  | pngEncoder
  | custom (id : Nat)
  deriving DecidableEq, Repr

/-- Modelled from the spec: `formatTyp`, the identifier of a built-in image
format, with its two recognised constants `JPEG_FORMAT` and `PNG_FORMAT`; every
other value of the type is `other n`. -/
inductive formatTyp where
  | JPEG_FORMAT
  | PNG_FORMAT
  | other (n : Nat)
  deriving DecidableEq, Repr

/-- Modelled from the spec: the package variable `_shapeCircle`, the built-in
circle shape. -/
def _shapeCircle : IShape := IShape.circle

/-- An unsigned 8-bit integer, the parameter type of `WithQRWidth`. -/
abbrev uint8 := Fin 256

/-- An open file, as returned by `os.Open`. -/
structure File where
  fd : Nat
  deriving DecidableEq, Repr

/-- The functions of other files and packages that the options call, as
oracles.  The hex-string parser `hexToRGBA` has a single result, a colour, and
no error result: on a string it parses it returns the colour (`ok`), on any
other string it panics (`error`, with the panic value as text).  The file system
and the decoders answer with a value or with an error (the text `%v` prints). -/
structure Externals where
  hexToRGBA : String → Except String Color
  osOpen : String → Except String File
  jpegDecode : File → Except String Image
  pngDecode : File → Except String Image

/-! ## State -/

/-- The record `outputImageOptions`; its declaration is in another file, the
fields are the ones the options assign. -/
structure outputImageOptions where
  bgColor : Color
  qrColor : Color
  logo : Image
  qrWidth : Int
  shape : IShape
  imageEncoder : ImageEncoder
  deriving DecidableEq, Repr

/-- A Go `map[matrix.State]color.Color`: `none` is a missing key. -/
abbrev ColorTable := State → Option Color

/-- The map assignment `m[k] = v`. -/
def ColorTable.set (m : ColorTable) (k : State) (v : Color) : ColorTable :=
  fun k' => if k' = k then some v else m k'

/-- Everything an option can read or write: the record behind the pointer `oo`,
the package-level table `_stateToRGBA`, and the lines printed so far. -/
structure Env where
  oo : outputImageOptions
  _stateToRGBA : ColorTable
  stdout : List String

/-- How running a function body ends: it returns, or it panics with a value;
both carry the state reached. -/
inductive Outcome where
  | done (env : Env)
  | panicked (msg : String) (env : Env)

/-- The state an outcome carries. -/
def Outcome.env : Outcome → Env
  | .done env => env
  | .panicked _ env => env

/-! ## `funcOption` -/

/-- The struct `funcOption`: it wraps a function that modifies the options. -/
structure funcOption where
  f : Env → Outcome

/-- The interface `ImageOption`; `funcOption` is its only implementation. -/
abbrev ImageOption := funcOption

/-- The method `(fo *funcOption) apply(oo)`: calls `fo.f(oo)`. -/
def funcOption.apply (fo : funcOption) (env : Env) : Outcome :=
  fo.f env

/-- The constructor `newFuncDialOption(f)`. -/
def newFuncDialOption (f : Env → Outcome) : funcOption :=
  { f := f }

/-! ## The options -/

/-- Option `WithBgColor(c)`: `oo.bgColor = c; _stateToRGBA[StateFalse] = oo.bgColor`. -/
def WithBgColor (c : Color) : ImageOption :=
  newFuncDialOption fun env =>
    let oo := { env.oo with bgColor := c }
    .done { env with oo := oo, _stateToRGBA := env._stateToRGBA.set .StateFalse oo.bgColor }

/-- Option `WithBgColorRGBHex(hex)`: `oo.bgColor = hexToRGBA(hex)`, then
`_stateToRGBA[StateFalse] = oo.bgColor`.  The call of `hexToRGBA` comes first: if
it panics, nothing has been assigned. -/
def WithBgColorRGBHex (ext : Externals) (hex : String) : ImageOption :=
  newFuncDialOption fun env =>
    match ext.hexToRGBA hex with
    | .error msg => .panicked msg env
    | .ok c =>
      let oo := { env.oo with bgColor := c }
      .done { env with oo := oo, _stateToRGBA := env._stateToRGBA.set .StateFalse oo.bgColor }

/-- Option `WithFgColor(c)`: `oo.qrColor = c`, then the entries of `StateTrue` and of
`StateFinder` are assigned `oo.qrColor`. -/
def WithFgColor (c : Color) : ImageOption :=
  newFuncDialOption fun env =>
    let oo := { env.oo with qrColor := c }
    .done { env with
      oo := oo,
      _stateToRGBA := (env._stateToRGBA.set .StateTrue oo.qrColor).set .StateFinder oo.qrColor }

/-- Option `WithFgColorRGBHex(hex)`: `oo.qrColor = hexToRGBA(hex)`, then the
entries of `StateTrue` and of `StateFinder` are assigned `oo.qrColor`.  The call
of `hexToRGBA` comes first: if it panics, nothing has been assigned. -/
def WithFgColorRGBHex (ext : Externals) (hex : String) : ImageOption :=
  newFuncDialOption fun env =>
    match ext.hexToRGBA hex with
    | .error msg => .panicked msg env
    | .ok c =>
      let oo := { env.oo with qrColor := c }
      .done { env with
        oo := oo,
        _stateToRGBA :=
          (env._stateToRGBA.set .StateTrue oo.qrColor).set .StateFinder oo.qrColor }

/-- Option `WithLogoImage(img)`: `oo.logo = img`. -/
def WithLogoImage (img : Image) : ImageOption :=
  newFuncDialOption fun env =>
    .done { env with oo := { env.oo with logo := img } }

/-- The call `fmt.Printf(...)`: appends the formatted text to the output. -/
def printf (env : Env) (text : String) : Env :=
  { env with stdout := env.stdout ++ [text] }

/-- Option `WithLogoImageFileJPEG(f)`: opens `f` and decodes it as JPEG; on either
error it prints a line and returns, otherwise `oo.logo = img`. -/
def WithLogoImageFileJPEG (ext : Externals) (f : String) : ImageOption :=
  newFuncDialOption fun env =>
    match ext.osOpen f with
    | .error err =>
      .done (printf env ("could not open file(" ++ f ++ "), error=" ++ err ++ "\n"))
    | .ok fd =>
      match ext.jpegDecode fd with
      | .error err =>
        .done (printf env ("could not open file(" ++ f ++ "), error=" ++ err ++ "\n"))
      | .ok img =>
        .done { env with oo := { env.oo with logo := img } }

/-- Option `WithLogoImageFilePNG(f)`: opens `f` and decodes it as PNG; on either error
it prints a line and returns, otherwise `oo.logo = img`. -/
def WithLogoImageFilePNG (ext : Externals) (f : String) : ImageOption :=
  newFuncDialOption fun env =>
    match ext.osOpen f with
    | .error err =>
      .done (printf env ("Open file(" ++ f ++ ") failed: " ++ err ++ "\n"))
    | .ok fd =>
      match ext.pngDecode fd with
      | .error err =>
        .done (printf env ("Decode file(" ++ f ++ ") as PNG failed: " ++ err ++ "\n"))
      | .ok img =>
        .done { env with oo := { env.oo with logo := img } }

/-- Option `WithQRWidth(width)`: `oo.qrWidth = int(width)`. -/
def WithQRWidth (width : uint8) : ImageOption :=
  newFuncDialOption fun env =>
    .done { env with oo := { env.oo with qrWidth := (width.val : Int) } }

/-- Option `WithCircleShape()`: `oo.shape = _shapeCircle`. -/
def WithCircleShape : ImageOption :=
  newFuncDialOption fun env =>
    .done { env with oo := { env.oo with shape := _shapeCircle } }

/-- Option `WithCustomShape(shape)`: `oo.shape = shape`. -/
def WithCustomShape (shape : IShape) : ImageOption :=
  newFuncDialOption fun env =>
    .done { env with oo := { env.oo with shape := shape } }

/-- Option `WithBuiltinImageEncoder(format)`: the switch picks `jpegEncoder{}` or
`pngEncoder{}` and panics in the default case; then
`oo.imageEncoder = encoder`. -/
def WithBuiltinImageEncoder (format : formatTyp) : ImageOption :=
  newFuncDialOption fun env =>
    match format with
    | .JPEG_FORMAT =>
      .done { env with oo := { env.oo with imageEncoder := ImageEncoder.jpegEncoder } }
    | .PNG_FORMAT =>
      .done { env with oo := { env.oo with imageEncoder := ImageEncoder.pngEncoder } }
    | .other _ => .panicked "Not supported file format" env

/-- Option `WithCustomImageEncoder(encoder)`: returns at once when `encoder == nil`,
otherwise `oo.imageEncoder = encoder`. -/
def WithCustomImageEncoder (encoder : ImageEncoder) : ImageOption :=
  newFuncDialOption fun env =>
    if encoder = ImageEncoder.nil then .done env
    else .done { env with oo := { env.oo with imageEncoder := encoder } }

/-! ## Options as data, and their application in order -/

/-- Modelled from the spec: the Option Application Pipeline, whose loop is in
another file: "apply each step exactly once, in order, mutating the
configuration".  A panic ends the run where it is raised, with the state reached
so far. -/
def applyOptions : List ImageOption → Env → Outcome
  | [], env => .done env
  | opt :: opts, env =>
    match opt.apply env with
    | .done env' => applyOptions opts env'
    | .panicked msg env' => .panicked msg env'

/-- A call of one of the twelve option constructors, with its argument. -/
inductive Step where
  | bgColor (c : Color)
  | bgColorRGBHex (hex : String)
  | fgColor (c : Color)
  | fgColorRGBHex (hex : String)
  | logoImage (img : Image)
  | logoImageFileJPEG (f : String)
  | logoImageFilePNG (f : String)
  | qrWidth (width : uint8)
  | circleShape
  | customShape (shape : IShape)
  | builtinImageEncoder (format : formatTyp)
  | customImageEncoder (encoder : ImageEncoder)
  deriving DecidableEq, Repr

/-- The option a call builds. -/
def Step.toOption (ext : Externals) : Step → ImageOption
  | .bgColor c => WithBgColor c
  | .bgColorRGBHex hex => WithBgColorRGBHex ext hex
  | .fgColor c => WithFgColor c
  | .fgColorRGBHex hex => WithFgColorRGBHex ext hex
  | .logoImage img => WithLogoImage img
  | .logoImageFileJPEG f => WithLogoImageFileJPEG ext f
  | .logoImageFilePNG f => WithLogoImageFilePNG ext f
  | .qrWidth width => WithQRWidth width
  | .circleShape => WithCircleShape
  | .customShape shape => WithCustomShape shape
  | .builtinImageEncoder format => WithBuiltinImageEncoder format
  | .customImageEncoder encoder => WithCustomImageEncoder encoder

/-- The options a list of calls builds, in the same order. -/
def toOptions (ext : Externals) (steps : List Step) : List ImageOption :=
  steps.map (Step.toOption ext)

/-- The colour a background step asks for: its argument, or the colour
`hexToRGBA` returns for its string; `none` for any other step, and for a hex
step whose string `hexToRGBA` does not parse. -/
def Step.bgOf (ext : Externals) : Step → Option Color
  | .bgColor c => some c
  | .bgColorRGBHex hex =>
    match ext.hexToRGBA hex with
    | .ok c => some c
    | .error _ => none
  | _ => none

/-- The colour a foreground step asks for: its argument, or the colour
`hexToRGBA` returns for its string; `none` for any other step, and for a hex
step whose string `hexToRGBA` does not parse. -/
def Step.fgOf (ext : Externals) : Step → Option Color
  | .fgColor c => some c
  | .fgColorRGBHex hex =>
    match ext.hexToRGBA hex with
    | .ok c => some c
    | .error _ => none
  | _ => none

/-- The shape a shape-selection step asks for; `none` for any other step. -/
def Step.shapeOf : Step → Option IShape
  | .circleShape => some _shapeCircle
  | .customShape shape => some shape
  | _ => none

/-- Colour steps: the four background and foreground options. -/
def Step.isColor : Step → Bool
  | .bgColor _ => true
  | .bgColorRGBHex _ => true
  | .fgColor _ => true
  | .fgColorRGBHex _ => true
  | _ => false

/-- Shape-selection steps: `WithCircleShape` and `WithCustomShape`. -/
def Step.isShape : Step → Bool
  | .circleShape => true
  | .customShape _ => true
  | _ => false

/-- A built-in encoder step whose format is neither `JPEG_FORMAT` nor
`PNG_FORMAT`: the one way an encoder step panics.  It says nothing about colour
steps; `Step.panics` is the test that covers every step. -/
def Step.unsupported : Step → Bool
  | .builtinImageEncoder .JPEG_FORMAT => false
  | .builtinImageEncoder .PNG_FORMAT => false
  | .builtinImageEncoder (.other _) => true
  | _ => false

/-- The steps that panic when applied: a hex-string colour step whose string
`hexToRGBA` does not parse, and a built-in encoder step whose format is neither
`JPEG_FORMAT` nor `PNG_FORMAT`.  No other option has a panic in its body. -/
def Step.panics (ext : Externals) : Step → Bool
  | .bgColorRGBHex hex =>
    match ext.hexToRGBA hex with
    | .ok _ => false
    | .error _ => true
  | .fgColorRGBHex hex =>
    match ext.hexToRGBA hex with
    | .ok _ => false
    | .error _ => true
  | .builtinImageEncoder .JPEG_FORMAT => false
  | .builtinImageEncoder .PNG_FORMAT => false
  | .builtinImageEncoder (.other _) => true
  | _ => false

/-- The colour of the last background step of a sequence: the first one met
when the sequence is read from its end. -/
def lastBg (ext : Externals) (steps : List Step) : Option Color :=
  steps.reverse.findSome? (Step.bgOf ext)

/-- The colour of the last foreground step of a sequence. -/
def lastFg (ext : Externals) (steps : List Step) : Option Color :=
  steps.reverse.findSome? (Step.fgOf ext)

/-- The shape of the last shape-selection step of a sequence. -/
def lastShape (steps : List Step) : Option IShape :=
  steps.reverse.findSome? Step.shapeOf

/-! ## Sample values -/

/-- Solid black. -/
def black : Color := .rgba 0 0 0 255

/-- Solid white. -/
def white : Color := .rgba 255 255 255 255

/-- Solid red. -/
def red : Color := .rgba 255 0 0 255

/-- Solid blue. -/
def blue : Color := .rgba 0 0 255 255

/-- A sample starting state: black on white, no logo, rectangles, JPEG output,
nothing printed. -/
def sampleEnv : Env where
  oo := { bgColor := white, qrColor := black, logo := .nil, qrWidth := 20,
          shape := .rectangle, imageEncoder := .jpegEncoder }
  _stateToRGBA := fun s =>
    match s with
    | .StateFalse => some white
    | .StateTrue => some black
    | .StateFinder => some black
  stdout := []

/-- A sample environment of the options: `hexToRGBA` parses three strings and
panics on every other one (on `red` and on `bad`, say), the only file that opens
is `logo.png`, and it decodes as PNG but not as JPEG. -/
def sampleExt : Externals where
  hexToRGBA := fun hex =>
    if hex = "#ff0000" then .ok red
    else if hex = "#0000ff" then .ok blue
    else if hex = "#000000" then .ok black
    else .error ("invalid hex color: " ++ hex)
  osOpen := fun f => if f = "logo.png" then .ok { fd := 3 } else .error "no such file or directory"
  jpegDecode := fun _ => .error "invalid JPEG format: missing SOI marker"
  pngDecode := fun file => if file.fd = 3 then .ok (.bitmap 1) else .error "not a PNG file"

/-! ## Notions used by the algebraic properties and the invariants -/

/-- Logo steps that read a file: `WithLogoImageFileJPEG` and
`WithLogoImageFilePNG`. -/
def Step.isFileLogo : Step → Bool
  | .logoImageFileJPEG _ => true
  | .logoImageFilePNG _ => true
  | _ => false

/-- The groups of steps that assign in memory, named after what they assign. -/
inductive Group where
  | background
  | foreground
  | logo
  | width
  | shape
  | encoder
  deriving DecidableEq, Repr

/-- The group of a step: background colour, foreground colour, in-memory logo,
width, shape or encoder; the two steps that load a logo from a file are in no
group. -/
def Step.group : Step → Option Group
  | .bgColor _ => some .background
  | .bgColorRGBHex _ => some .background
  | .fgColor _ => some .foreground
  | .fgColorRGBHex _ => some .foreground
  | .logoImage _ => some .logo
  | .logoImageFileJPEG _ => none
  | .logoImageFilePNG _ => none
  | .qrWidth _ => some .width
  | .circleShape => some .shape
  | .customShape _ => some .shape
  | .builtinImageEncoder _ => some .encoder
  | .customImageEncoder _ => some .encoder

/-- The colour fields of the configuration and the table agree: the background
field is the `StateFalse` entry, and the foreground field is both the
`StateTrue` and the `StateFinder` entry. -/
def colorsAgree (env : Env) : Prop :=
  env._stateToRGBA .StateFalse = some env.oo.bgColor ∧
  env._stateToRGBA .StateTrue = some env.oo.qrColor ∧
  env._stateToRGBA .StateFinder = some env.oo.qrColor

instance colorsAgree.decidable (env : Env) : Decidable (colorsAgree env) := by
  unfold colorsAgree
  infer_instance

/-- Two configurations `a` and `b` of one process: each is its own record, the
table `_stateToRGBA` and the output exist once. -/
structure Shared where
  a : outputImageOptions
  b : outputImageOptions
  _stateToRGBA : ColorTable
  stdout : List String

/-- What an option applied to `a` can read and write: the record `a`, the table
and the output, not the record `b`. -/
def Shared.viewA (w : Shared) : Env :=
  { oo := w.a, _stateToRGBA := w._stateToRGBA, stdout := w.stdout }

/-- The call `opt.apply(&a)`: the option runs on the record `a` and on the
table; the record `b` is not passed to it and stays as it is. -/
def Shared.applyToA (opt : ImageOption) (w : Shared) : Shared :=
  let env' := (opt.apply w.viewA).env
  { a := env'.oo, b := w.b, _stateToRGBA := env'._stateToRGBA, stdout := env'.stdout }

/-- Two sample configurations that start from the same defaults and table. -/
def sampleShared : Shared :=
  { a := sampleEnv.oo, b := sampleEnv.oo, _stateToRGBA := sampleEnv._stateToRGBA, stdout := [] }

/-! ## Auxiliary facts -/

theorem applyOptions_append (xs ys : List ImageOption) (env : Env) :
    applyOptions (xs ++ ys) env =
      match applyOptions xs env with
      | .done env' => applyOptions ys env'
      | .panicked msg env' => .panicked msg env' := by
  induction xs generalizing env with
  | nil => simp [applyOptions]
  | cons x xs ih =>
    simp only [List.cons_append, applyOptions]
    cases hx : x.apply env with
    | done env' => simpa using ih env'
    | panicked msg env' => simp

theorem applyOptions_singleton (opt : ImageOption) (env : Env) :
    applyOptions [opt] env = opt.apply env := by
  simp only [applyOptions]
  cases opt.apply env <;> rfl

theorem lastBg_concat (ext : Externals) (steps : List Step) (s : Step) :
    lastBg ext (steps ++ [s]) = ((s.bgOf ext).or (lastBg ext steps)) := by
  simp only [lastBg, List.reverse_append, List.reverse_cons, List.reverse_nil, List.nil_append,
    List.singleton_append, List.findSome?_cons]
  cases Step.bgOf ext s <;> rfl

theorem lastFg_concat (ext : Externals) (steps : List Step) (s : Step) :
    lastFg ext (steps ++ [s]) = ((s.fgOf ext).or (lastFg ext steps)) := by
  simp only [lastFg, List.reverse_append, List.reverse_cons, List.reverse_nil, List.nil_append,
    List.singleton_append, List.findSome?_cons]
  cases Step.fgOf ext s <;> rfl

theorem lastShape_concat (steps : List Step) (s : Step) :
    lastShape (steps ++ [s]) = (s.shapeOf.or (lastShape steps)) := by
  simp only [lastShape, List.reverse_append, List.reverse_cons, List.reverse_nil, List.nil_append,
    List.singleton_append, List.findSome?_cons]
  cases Step.shapeOf s <;> rfl

theorem getD_or {α : Type} (x y : Option α) (d : α) :
    (x.or y).getD d = x.getD (y.getD d) := by
  cases x <;> rfl

theorem getD_map_some_or {α : Type} (x y : Option α) (d : Option α) :
    ((x.or y).map some).getD d = (x.map some).getD ((y.map some).getD d) := by
  cases x <;> rfl

/-- A background hex step whose string parses is the direct step of the parsed
colour. -/
theorem WithBgColorRGBHex_eq (ext : Externals) (hex : String) (c : Color)
    (hc : ext.hexToRGBA hex = .ok c) : WithBgColorRGBHex ext hex = WithBgColor c := by
  simp only [WithBgColorRGBHex, WithBgColor, hc]

/-- A foreground hex step whose string parses is the direct step of the parsed
colour. -/
theorem WithFgColorRGBHex_eq (ext : Externals) (hex : String) (c : Color)
    (hc : ext.hexToRGBA hex = .ok c) : WithFgColorRGBHex ext hex = WithFgColor c := by
  simp only [WithFgColorRGBHex, WithFgColor, hc]

theorem hex_ok_of_not_panics_bg (ext : Externals) (hex : String)
    (h : (Step.bgColorRGBHex hex).panics ext = false) : ∃ c, ext.hexToRGBA hex = .ok c := by
  simp only [Step.panics] at h
  cases hc : ext.hexToRGBA hex with
  | ok c => exact ⟨c, rfl⟩
  | error msg => simp [hc] at h

theorem hex_ok_of_not_panics_fg (ext : Externals) (hex : String)
    (h : (Step.fgColorRGBHex hex).panics ext = false) : ∃ c, ext.hexToRGBA hex = .ok c := by
  simp only [Step.panics] at h
  cases hc : ext.hexToRGBA hex with
  | ok c => exact ⟨c, rfl⟩
  | error msg => simp [hc] at h

/-- A step that panics does so on every state, with the same panic value, and
carries the state it was given: nothing was assigned before the panic. -/
theorem step_panics_state (ext : Externals) (s : Step) (h : s.panics ext = true) :
    ∃ msg, ∀ env : Env, (s.toOption ext).apply env = .panicked msg env := by
  cases s with
  | bgColorRGBHex hex =>
    simp only [Step.panics] at h
    cases hc : ext.hexToRGBA hex with
    | ok c => simp [hc] at h
    | error msg =>
      refine ⟨msg, fun env => ?_⟩
      simp only [Step.toOption, WithBgColorRGBHex, newFuncDialOption, funcOption.apply, hc]
  | fgColorRGBHex hex =>
    simp only [Step.panics] at h
    cases hc : ext.hexToRGBA hex with
    | ok c => simp [hc] at h
    | error msg =>
      refine ⟨msg, fun env => ?_⟩
      simp only [Step.toOption, WithFgColorRGBHex, newFuncDialOption, funcOption.apply, hc]
  | builtinImageEncoder format =>
    cases format with
    | other n => exact ⟨"Not supported file format", fun _ => rfl⟩
    | JPEG_FORMAT => simp [Step.panics] at h
    | PNG_FORMAT => simp [Step.panics] at h
  | _ => simp [Step.panics] at h

/-- What the state looks like after one step that does not panic: the step
returns, and each of the colour and shape fields and of the three table entries
holds the value the step asks for, or else its old value. -/
theorem step_effect (ext : Externals) (s : Step) (env : Env) (h : s.panics ext = false) :
    ∃ env', (s.toOption ext).apply env = .done env' ∧
      env'.oo.bgColor = (s.bgOf ext).getD env.oo.bgColor ∧
      env'._stateToRGBA .StateFalse =
        ((s.bgOf ext).map some).getD (env._stateToRGBA .StateFalse) ∧
      env'.oo.qrColor = (s.fgOf ext).getD env.oo.qrColor ∧
      env'._stateToRGBA .StateTrue =
        ((s.fgOf ext).map some).getD (env._stateToRGBA .StateTrue) ∧
      env'._stateToRGBA .StateFinder =
        ((s.fgOf ext).map some).getD (env._stateToRGBA .StateFinder) ∧
      env'.oo.shape = s.shapeOf.getD env.oo.shape := by
  cases s with
  | bgColor c =>
    exact ⟨_, rfl, by simp [Step.bgOf, Step.fgOf, Step.shapeOf, ColorTable.set]⟩
  | bgColorRGBHex hex =>
    obtain ⟨c, hc⟩ := hex_ok_of_not_panics_bg ext hex h
    rw [show (Step.bgColorRGBHex hex).toOption ext = WithBgColor c from
      WithBgColorRGBHex_eq ext hex c hc]
    exact ⟨_, rfl, by simp [Step.bgOf, Step.fgOf, Step.shapeOf, ColorTable.set, hc]⟩
  | fgColor c =>
    exact ⟨_, rfl, by simp [Step.bgOf, Step.fgOf, Step.shapeOf, ColorTable.set]⟩
  | fgColorRGBHex hex =>
    obtain ⟨c, hc⟩ := hex_ok_of_not_panics_fg ext hex h
    rw [show (Step.fgColorRGBHex hex).toOption ext = WithFgColor c from
      WithFgColorRGBHex_eq ext hex c hc]
    exact ⟨_, rfl, by simp [Step.bgOf, Step.fgOf, Step.shapeOf, ColorTable.set, hc]⟩
  | logoImage img =>
    exact ⟨_, rfl, by simp [Step.bgOf, Step.fgOf, Step.shapeOf]⟩
  | logoImageFileJPEG f =>
    simp only [Step.toOption, WithLogoImageFileJPEG, newFuncDialOption, funcOption.apply,
      Step.bgOf, Step.fgOf, Step.shapeOf]
    cases ext.osOpen f with
    | error err => exact ⟨_, rfl, by simp [printf]⟩
    | ok fd =>
      dsimp only
      cases ext.jpegDecode fd with
      | error err => exact ⟨_, rfl, by simp [printf]⟩
      | ok img => exact ⟨_, rfl, by simp⟩
  | logoImageFilePNG f =>
    simp only [Step.toOption, WithLogoImageFilePNG, newFuncDialOption, funcOption.apply,
      Step.bgOf, Step.fgOf, Step.shapeOf]
    cases ext.osOpen f with
    | error err => exact ⟨_, rfl, by simp [printf]⟩
    | ok fd =>
      dsimp only
      cases ext.pngDecode fd with
      | error err => exact ⟨_, rfl, by simp [printf]⟩
      | ok img => exact ⟨_, rfl, by simp⟩
  | qrWidth width =>
    exact ⟨_, rfl, by simp [Step.bgOf, Step.fgOf, Step.shapeOf]⟩
  | circleShape =>
    exact ⟨_, rfl, by simp [Step.bgOf, Step.fgOf, Step.shapeOf]⟩
  | customShape shape =>
    exact ⟨_, rfl, by simp [Step.bgOf, Step.fgOf, Step.shapeOf]⟩
  | builtinImageEncoder format =>
    cases format with
    | JPEG_FORMAT => exact ⟨_, rfl, by simp [Step.bgOf, Step.fgOf, Step.shapeOf]⟩
    | PNG_FORMAT => exact ⟨_, rfl, by simp [Step.bgOf, Step.fgOf, Step.shapeOf]⟩
    | other n => simp [Step.panics] at h
  | customImageEncoder encoder =>
    simp only [Step.toOption, WithCustomImageEncoder, newFuncDialOption, funcOption.apply,
      Step.bgOf, Step.fgOf, Step.shapeOf]
    by_cases hnil : encoder = ImageEncoder.nil
    · exact ⟨_, if_pos hnil, by simp⟩
    · exact ⟨_, if_neg hnil, by simp⟩

/-- What the state looks like after a sequence of steps none of which panics:
the run returns, and each colour and shape field and table entry holds the value
of the last step that sets it, or else its initial value. -/
theorem run_effect (ext : Externals) (steps : List Step) (env : Env)
    (h : ∀ s ∈ steps, s.panics ext = false) :
    ∃ env', applyOptions (toOptions ext steps) env = .done env' ∧
      env'.oo.bgColor = (lastBg ext steps).getD env.oo.bgColor ∧
      env'._stateToRGBA .StateFalse =
        ((lastBg ext steps).map some).getD (env._stateToRGBA .StateFalse) ∧
      env'.oo.qrColor = (lastFg ext steps).getD env.oo.qrColor ∧
      env'._stateToRGBA .StateTrue =
        ((lastFg ext steps).map some).getD (env._stateToRGBA .StateTrue) ∧
      env'._stateToRGBA .StateFinder =
        ((lastFg ext steps).map some).getD (env._stateToRGBA .StateFinder) ∧
      env'.oo.shape = (lastShape steps).getD env.oo.shape := by
  induction steps using List.reverseRecOn with
  | nil => exact ⟨env, rfl, rfl, rfl, rfl, rfl, rfl, rfl⟩
  | append_singleton l a ih =>
    obtain ⟨e1, hrun, h1, h2, h3, h4, h5, h6⟩ :=
      ih (fun s hs => h s (List.mem_append_left _ hs))
    obtain ⟨e2, hstep, k1, k2, k3, k4, k5, k6⟩ :=
      step_effect ext a e1 (h a (by simp))
    refine ⟨e2, ?_, ?_, ?_, ?_, ?_, ?_, ?_⟩
    · simp only [toOptions, List.map_append, List.map_cons, List.map_nil, applyOptions_append]
      simp only [toOptions] at hrun
      rw [hrun]
      simpa [applyOptions_singleton] using hstep
    · rw [lastBg_concat, getD_or, k1, h1]
    · rw [lastBg_concat, getD_map_some_or, k2, h2]
    · rw [lastFg_concat, getD_or, k3, h3]
    · rw [lastFg_concat, getD_map_some_or, k4, h4]
    · rw [lastFg_concat, getD_map_some_or, k5, h5]
    · rw [lastShape_concat, getD_or, k6, h6]

/-! ## Colour steps -/

/-- C1: the foreground-colour step returns with the foreground field equal to
the requested colour and the table entries of `StateTrue` and `StateFinder` both
equal to it, hence equal to each other: for `WithFgColor(c)` with any colour
`c`, and for `WithFgColorRGBHex(h)` with the colour `c = hexToRGBA(h)`. -/
theorem C1_fg_sets_foreground_and_finder (ext : Externals) (env : Env) (c : Color)
    (hex : String) :
    (∃ env', (WithFgColor c).apply env = .done env' ∧
      env'.oo.qrColor = c ∧
      env'._stateToRGBA .StateTrue = some c ∧
      env'._stateToRGBA .StateFinder = some c ∧
      env'._stateToRGBA .StateTrue = env'._stateToRGBA .StateFinder) ∧
    (∀ ch : Color, ext.hexToRGBA hex = .ok ch →
      ∃ env', (WithFgColorRGBHex ext hex).apply env = .done env' ∧
        env'.oo.qrColor = ch ∧
        env'._stateToRGBA .StateTrue = some ch ∧
        env'._stateToRGBA .StateFinder = some ch ∧
        env'._stateToRGBA .StateTrue = env'._stateToRGBA .StateFinder) := by
  constructor
  · exact ⟨_, rfl, by simp [ColorTable.set]⟩
  · intro ch hc
    rw [WithFgColorRGBHex_eq ext hex ch hc]
    exact ⟨_, rfl, by simp [ColorTable.set]⟩

/-- The string `#0000ff` parses to blue, and the hex step makes the foreground
field and both entries blue. -/
theorem C1_fg_sets_foreground_and_finder_witness :
    sampleExt.hexToRGBA "#0000ff" = .ok blue ∧
    ∃ env', (WithFgColorRGBHex sampleExt "#0000ff").apply sampleEnv = .done env' ∧
      env'.oo.qrColor = blue ∧
      env'._stateToRGBA .StateTrue = some blue ∧
      env'._stateToRGBA .StateFinder = some blue ∧
      env'._stateToRGBA .StateTrue = env'._stateToRGBA .StateFinder :=
  ⟨rfl, (C1_fg_sets_foreground_and_finder sampleExt sampleEnv red "#0000ff").2 blue rfl⟩

/-- C2 (counterexample): a red foreground, then a background hex step whose
string `hexToRGBA` does not parse, then a blue foreground: the run panics in the
second step, the third is never applied, and the foreground field and entries
are red, not the blue of the last foreground step. -/
theorem C2_malformed_hex_stops_run :
    (∀ s ∈ [Step.fgColor red, Step.bgColorRGBHex "red", Step.fgColor blue],
      s.isColor = true) ∧
    lastFg sampleExt [Step.fgColor red, Step.bgColorRGBHex "red", Step.fgColor blue] =
      some blue ∧
    ∃ msg env', applyOptions (toOptions sampleExt
        [Step.fgColor red, Step.bgColorRGBHex "red", Step.fgColor blue]) sampleEnv =
        .panicked msg env' ∧
      env'.oo.qrColor = red ∧
      env'._stateToRGBA .StateTrue = some red ∧
      env'._stateToRGBA .StateFinder = some red ∧
      env'.oo.qrColor ≠ blue :=
  ⟨by decide, rfl, _, _, rfl, rfl, rfl, rfl, by decide⟩

/-- C2 (amended): a sequence of steps none of which panics, in particular a
sequence of colour steps whose hex strings are all ones `hexToRGBA` parses,
applied in order returns, and afterwards the background field and the
`StateFalse` entry hold the colour of the last background step (their initial
values if there is none), while the foreground field and the `StateTrue` and
`StateFinder` entries hold the colour of the last foreground step (their initial
values if there is none). -/
theorem C2_color_last_write_wins (ext : Externals) (steps : List Step) (env : Env)
    (hpan : ∀ s ∈ steps, s.panics ext = false) :
    ∃ env', applyOptions (toOptions ext steps) env = .done env' ∧
      env'.oo.bgColor = (lastBg ext steps).getD env.oo.bgColor ∧
      env'._stateToRGBA .StateFalse =
        ((lastBg ext steps).map some).getD (env._stateToRGBA .StateFalse) ∧
      env'.oo.qrColor = (lastFg ext steps).getD env.oo.qrColor ∧
      env'._stateToRGBA .StateTrue =
        ((lastFg ext steps).map some).getD (env._stateToRGBA .StateTrue) ∧
      env'._stateToRGBA .StateFinder =
        ((lastFg ext steps).map some).getD (env._stateToRGBA .StateFinder) := by
  obtain ⟨env', hrun, h1, h2, h3, h4, h5, _⟩ := run_effect ext steps env hpan
  exact ⟨env', hrun, h1, h2, h3, h4, h5⟩

/-- Red foreground, blue background by hex string, white background, blue
foreground by hex string: the last background is white, the last foreground
blue, whatever came before. -/
theorem C2_color_last_write_wins_witness :
    (∀ s ∈ [Step.fgColor red, Step.bgColorRGBHex "#0000ff", Step.bgColor white,
        Step.fgColorRGBHex "#0000ff"], s.isColor = true) ∧
    (∀ s ∈ [Step.fgColor red, Step.bgColorRGBHex "#0000ff", Step.bgColor white,
        Step.fgColorRGBHex "#0000ff"], s.panics sampleExt = false) ∧
    ∃ env', applyOptions (toOptions sampleExt [Step.fgColor red, Step.bgColorRGBHex "#0000ff",
        Step.bgColor white, Step.fgColorRGBHex "#0000ff"]) sampleEnv = .done env' ∧
      env'.oo.bgColor = white ∧
      env'._stateToRGBA .StateFalse = some white ∧
      env'.oo.qrColor = blue ∧
      env'._stateToRGBA .StateTrue = some blue ∧
      env'._stateToRGBA .StateFinder = some blue :=
  ⟨by decide, by decide,
    C2_color_last_write_wins sampleExt [Step.fgColor red, Step.bgColorRGBHex "#0000ff",
      Step.bgColor white, Step.fgColorRGBHex "#0000ff"] sampleEnv (by decide)⟩

/-! ## Shape steps -/

/-- C3: a sequence of option steps none of which panics returns with the shape
field equal to the shape of the last shape-selection step (the circle for
`WithCircleShape`, the argument for `WithCustomShape`; the initial shape if
there is none); every single step that is not a shape-selection step and does
not panic returns with the shape field as it was; and a step that is not a
shape-selection step and panics carries the shape field as it was too. -/
theorem C3_shape_last_write_wins (ext : Externals) (steps : List Step) (env : Env)
    (hpan : ∀ s ∈ steps, s.panics ext = false) :
    (∃ env', applyOptions (toOptions ext steps) env = .done env' ∧
      env'.oo.shape = (lastShape steps).getD env.oo.shape) ∧
    (∀ (s : Step) (e : Env), s.isShape = false → s.panics ext = false →
      ∃ e', (s.toOption ext).apply e = .done e' ∧ e'.oo.shape = e.oo.shape) ∧
    (∀ (s : Step) (e : Env), s.isShape = false →
      ((s.toOption ext).apply e).env.oo.shape = e.oo.shape) := by
  have single : ∀ (s : Step) (e : Env), s.isShape = false → s.panics ext = false →
      ∃ e', (s.toOption ext).apply e = .done e' ∧ e'.oo.shape = e.oo.shape := by
    intro s e hshape hs
    obtain ⟨e', hstep, _, _, _, _, _, h6⟩ := step_effect ext s e hs
    refine ⟨e', hstep, ?_⟩
    rw [h6]
    cases s <;> simp_all [Step.isShape, Step.shapeOf]
  refine ⟨?_, single, ?_⟩
  · obtain ⟨env', hrun, _, _, _, _, _, h6⟩ := run_effect ext steps env hpan
    exact ⟨env', hrun, h6⟩
  · intro s e hshape
    cases hp : s.panics ext with
    | false =>
      obtain ⟨e', hstep, hsame⟩ := single s e hshape hp
      rw [hstep]
      exact hsame
    | true =>
      obtain ⟨msg, hstep⟩ := step_panics_state ext s hp
      rw [hstep e]
      rfl

/-- A custom shape, a foreground by hex string, the circle, then a width, a logo
file that does not open and an encoder: the circle is the shape at the end. -/
theorem C3_shape_last_write_wins_witness :
    (∀ s ∈ [Step.customShape (.custom 7), Step.fgColorRGBHex "#ff0000", Step.circleShape,
        Step.qrWidth 10, Step.logoImageFileJPEG "missing.jpg",
        Step.builtinImageEncoder .PNG_FORMAT],
      s.panics sampleExt = false) ∧
    (∃ env', applyOptions (toOptions sampleExt [Step.customShape (.custom 7),
        Step.fgColorRGBHex "#ff0000", Step.circleShape, Step.qrWidth 10,
        Step.logoImageFileJPEG "missing.jpg", Step.builtinImageEncoder .PNG_FORMAT])
        sampleEnv = .done env' ∧
      env'.oo.shape = IShape.circle) ∧
    (∃ e', ((Step.qrWidth 10).toOption sampleExt).apply sampleEnv = .done e' ∧
      e'.oo.shape = IShape.rectangle) :=
  ⟨by decide,
    (C3_shape_last_write_wins sampleExt [Step.customShape (.custom 7),
      Step.fgColorRGBHex "#ff0000", Step.circleShape, Step.qrWidth 10,
      Step.logoImageFileJPEG "missing.jpg", Step.builtinImageEncoder .PNG_FORMAT]
      sampleEnv (by decide)).1,
    (C3_shape_last_write_wins sampleExt [Step.customShape (.custom 7),
      Step.fgColorRGBHex "#ff0000", Step.circleShape, Step.qrWidth 10,
      Step.logoImageFileJPEG "missing.jpg", Step.builtinImageEncoder .PNG_FORMAT]
      sampleEnv (by decide)).2.1 (Step.qrWidth 10) sampleEnv rfl rfl⟩

/-- A run stops at the step that panics: the circle, then a foreground hex step
whose string does not parse, then a custom shape; the custom shape is never
applied and the shape carried by the panic is the circle. -/
theorem run_stops_before_later_shape :
    ∃ msg env', applyOptions (toOptions sampleExt [Step.circleShape,
        Step.fgColorRGBHex "bad", Step.customShape (.custom 7)]) sampleEnv =
        .panicked msg env' ∧
      env'.oo.shape = IShape.circle :=
  ⟨_, _, rfl, rfl⟩

/-- C6 (the code at the failing input): `WithCustomShape(nil)` applied to a
configuration whose shape is the rectangle returns with the shape field nil,
not with the rectangle. -/
theorem C6_custom_shape_nil_overwrites :
    sampleEnv.oo.shape = IShape.rectangle ∧
    ∃ env', (WithCustomShape IShape.nil).apply sampleEnv = .done env' ∧
      env'.oo.shape = IShape.nil ∧ env'.oo.shape ≠ sampleEnv.oo.shape :=
  ⟨rfl, _, rfl, rfl, by decide⟩

/-! ## Encoder steps -/

/-- C4: after options `pre` that return, the built-in encoder step panics if and
only if its format is neither `JPEG_FORMAT` nor `PNG_FORMAT`; when it does, the
state carried by the panic is the state before the step, and the run of
`pre`, the step and any further options `post` ends in that same panic: no
option of `post` is applied. -/
theorem C4_builtin_encoder_panics (format : formatTyp) (pre post : List ImageOption)
    (env e1 : Env) (hpre : applyOptions pre env = .done e1) :
    ((∃ msg e2, (WithBuiltinImageEncoder format).apply e1 = .panicked msg e2) ↔
      (format ≠ formatTyp.JPEG_FORMAT ∧ format ≠ formatTyp.PNG_FORMAT)) ∧
    (format ≠ formatTyp.JPEG_FORMAT ∧ format ≠ formatTyp.PNG_FORMAT →
      (WithBuiltinImageEncoder format).apply e1 = .panicked "Not supported file format" e1 ∧
      applyOptions (pre ++ WithBuiltinImageEncoder format :: post) env =
        .panicked "Not supported file format" e1) := by
  cases format with
  | JPEG_FORMAT =>
    simp [WithBuiltinImageEncoder, newFuncDialOption, funcOption.apply]
  | PNG_FORMAT =>
    simp [WithBuiltinImageEncoder, newFuncDialOption, funcOption.apply]
  | other n =>
    refine ⟨?_, ?_⟩
    · simp [WithBuiltinImageEncoder, newFuncDialOption, funcOption.apply]
    · intro _
      refine ⟨rfl, ?_⟩
      rw [applyOptions_append, hpre]
      rfl

/-- A red foreground, then an unknown format, then a width: the run panics in
the state reached after the colour step, and the width is never set. -/
theorem C4_builtin_encoder_panics_witness :
    applyOptions [WithFgColor red] sampleEnv = .done ((WithFgColor red).apply sampleEnv).env ∧
    (formatTyp.other 7 ≠ formatTyp.JPEG_FORMAT ∧ formatTyp.other 7 ≠ formatTyp.PNG_FORMAT) ∧
    applyOptions ([WithFgColor red] ++ WithBuiltinImageEncoder (.other 7) :: [WithQRWidth 5])
        sampleEnv =
      .panicked "Not supported file format" ((WithFgColor red).apply sampleEnv).env ∧
    ((WithFgColor red).apply sampleEnv).env.oo.qrWidth = 20 :=
  ⟨rfl, by decide,
    ((C4_builtin_encoder_panics (.other 7) [WithFgColor red] [WithQRWidth 5] sampleEnv
      ((WithFgColor red).apply sampleEnv).env rfl).2 (by decide)).2,
    rfl⟩

/-- C5: the built-in encoder step returns, for `JPEG_FORMAT` with the encoder
field set to the JPEG encoder and for `PNG_FORMAT` to the PNG encoder, whatever
the encoder was before; no other field of the configuration, no table entry and
no output changes. -/
theorem C5_builtin_encoder_sets_encoder (env : Env) :
    (WithBuiltinImageEncoder .JPEG_FORMAT).apply env =
      .done { env with oo := { env.oo with imageEncoder := ImageEncoder.jpegEncoder } } ∧
    (WithBuiltinImageEncoder .PNG_FORMAT).apply env =
      .done { env with oo := { env.oo with imageEncoder := ImageEncoder.pngEncoder } } :=
  ⟨rfl, rfl⟩

/-- C7: the custom-encoder step with a nil encoder returns the state exactly as
it was, and with a non-nil encoder it returns the state with the encoder field
set to that encoder and nothing else changed. -/
theorem C7_custom_encoder (env : Env) (encoder : ImageEncoder)
    (hne : encoder ≠ ImageEncoder.nil) :
    (WithCustomImageEncoder ImageEncoder.nil).apply env = .done env ∧
    (WithCustomImageEncoder encoder).apply env =
      .done { env with oo := { env.oo with imageEncoder := encoder } } := by
  constructor
  · rfl
  · simp [WithCustomImageEncoder, newFuncDialOption, funcOption.apply, hne]

/-- A caller's encoder replaces the JPEG encoder, a nil one does not. -/
theorem C7_custom_encoder_witness :
    ImageEncoder.custom 1 ≠ ImageEncoder.nil ∧
    (WithCustomImageEncoder ImageEncoder.nil).apply sampleEnv = .done sampleEnv ∧
    (WithCustomImageEncoder (.custom 1)).apply sampleEnv =
      .done { sampleEnv with oo := { sampleEnv.oo with imageEncoder := .custom 1 } } :=
  ⟨by decide, C7_custom_encoder sampleEnv (.custom 1) (by decide)⟩

/-! ## Logo steps -/

/-- C8: with the file system and the decoders as oracles, when opening the path
fails or decoding the opened file fails, `WithLogoImageFileJPEG` and
`WithLogoImageFilePNG` return (no panic) with the whole configuration, the logo
field included, and the whole colour table as they were; when both succeed with
an image, they return with the logo field set to that image and nothing else
changed. -/
theorem C8_logo_file (ext : Externals) (env : Env) (f : String) :
    ((∃ err, ext.osOpen f = .error err ∨
        ∃ fd, ext.osOpen f = .ok fd ∧ ext.jpegDecode fd = .error err) →
      ∃ env', (WithLogoImageFileJPEG ext f).apply env = .done env' ∧
        env'.oo = env.oo ∧ env'._stateToRGBA = env._stateToRGBA) ∧
    ((∃ err, ext.osOpen f = .error err ∨
        ∃ fd, ext.osOpen f = .ok fd ∧ ext.pngDecode fd = .error err) →
      ∃ env', (WithLogoImageFilePNG ext f).apply env = .done env' ∧
        env'.oo = env.oo ∧ env'._stateToRGBA = env._stateToRGBA) ∧
    (∀ fd img, ext.osOpen f = .ok fd → ext.jpegDecode fd = .ok img →
      (WithLogoImageFileJPEG ext f).apply env =
        .done { env with oo := { env.oo with logo := img } }) ∧
    (∀ fd img, ext.osOpen f = .ok fd → ext.pngDecode fd = .ok img →
      (WithLogoImageFilePNG ext f).apply env =
        .done { env with oo := { env.oo with logo := img } }) := by
  refine ⟨?_, ?_, ?_, ?_⟩
  · rintro ⟨err, hopen | ⟨fd, hopen, hdec⟩⟩
    · simp only [WithLogoImageFileJPEG, newFuncDialOption, funcOption.apply, hopen]
      exact ⟨_, rfl, rfl, rfl⟩
    · simp only [WithLogoImageFileJPEG, newFuncDialOption, funcOption.apply, hopen, hdec]
      exact ⟨_, rfl, rfl, rfl⟩
  · rintro ⟨err, hopen | ⟨fd, hopen, hdec⟩⟩
    · simp only [WithLogoImageFilePNG, newFuncDialOption, funcOption.apply, hopen]
      exact ⟨_, rfl, rfl, rfl⟩
    · simp only [WithLogoImageFilePNG, newFuncDialOption, funcOption.apply, hopen, hdec]
      exact ⟨_, rfl, rfl, rfl⟩
  · intro fd img hopen hdec
    simp only [WithLogoImageFileJPEG, newFuncDialOption, funcOption.apply, hopen, hdec]
  · intro fd img hopen hdec
    simp only [WithLogoImageFilePNG, newFuncDialOption, funcOption.apply, hopen, hdec]

/-- A path that does not open leaves the logo nil, for both formats; a PNG file
that opens but is not a JPEG leaves it nil too; the same file loaded as PNG
becomes the logo. -/
theorem C8_logo_file_witness :
    sampleExt.osOpen "missing.jpg" = .error "no such file or directory" ∧
    (∃ env', (WithLogoImageFileJPEG sampleExt "missing.jpg").apply sampleEnv = .done env' ∧
      env'.oo = sampleEnv.oo ∧ env'._stateToRGBA = sampleEnv._stateToRGBA) ∧
    (∃ env', (WithLogoImageFilePNG sampleExt "missing.jpg").apply sampleEnv = .done env' ∧
      env'.oo = sampleEnv.oo ∧ env'._stateToRGBA = sampleEnv._stateToRGBA) ∧
    (sampleExt.osOpen "logo.png" = .ok { fd := 3 } ∧
      sampleExt.jpegDecode { fd := 3 } = .error "invalid JPEG format: missing SOI marker") ∧
    (∃ env', (WithLogoImageFileJPEG sampleExt "logo.png").apply sampleEnv = .done env' ∧
      env'.oo = sampleEnv.oo ∧ env'._stateToRGBA = sampleEnv._stateToRGBA) ∧
    sampleExt.pngDecode { fd := 3 } = .ok (.bitmap 1) ∧
    (WithLogoImageFilePNG sampleExt "logo.png").apply sampleEnv =
      .done { sampleEnv with oo := { sampleEnv.oo with logo := .bitmap 1 } } :=
  ⟨rfl,
    (C8_logo_file sampleExt sampleEnv "missing.jpg").1 ⟨_, Or.inl rfl⟩,
    (C8_logo_file sampleExt sampleEnv "missing.jpg").2.1 ⟨_, Or.inl rfl⟩,
    ⟨rfl, rfl⟩,
    (C8_logo_file sampleExt sampleEnv "logo.png").1 ⟨_, Or.inr ⟨_, rfl, rfl⟩⟩,
    rfl,
    (C8_logo_file sampleExt sampleEnv "logo.png").2.2.2 _ _ rfl rfl⟩

/-! ## Frame properties -/

/-- C9: the background-colour step returns with the background field and the
`StateFalse` entry equal to the requested colour, and with the `StateTrue` and
`StateFinder` entries, the foreground field, the logo, the width, the shape and
the encoder as they were: for `WithBgColor(c)` with any colour `c`, and for
`WithBgColorRGBHex(h)` with the colour `c = hexToRGBA(h)`. -/
theorem C9_bg_frame (ext : Externals) (env : Env) (c : Color) (hex : String) :
    (∃ env', (WithBgColor c).apply env = .done env' ∧
      env'.oo.bgColor = c ∧
      env'._stateToRGBA .StateFalse = some c ∧
      env'._stateToRGBA .StateTrue = env._stateToRGBA .StateTrue ∧
      env'._stateToRGBA .StateFinder = env._stateToRGBA .StateFinder ∧
      env'.oo.qrColor = env.oo.qrColor ∧
      env'.oo.logo = env.oo.logo ∧
      env'.oo.qrWidth = env.oo.qrWidth ∧
      env'.oo.shape = env.oo.shape ∧
      env'.oo.imageEncoder = env.oo.imageEncoder) ∧
    (∀ ch : Color, ext.hexToRGBA hex = .ok ch →
      ∃ env', (WithBgColorRGBHex ext hex).apply env = .done env' ∧
        env'.oo.bgColor = ch ∧
        env'._stateToRGBA .StateFalse = some ch ∧
        env'._stateToRGBA .StateTrue = env._stateToRGBA .StateTrue ∧
        env'._stateToRGBA .StateFinder = env._stateToRGBA .StateFinder ∧
        env'.oo.qrColor = env.oo.qrColor ∧
        env'.oo.logo = env.oo.logo ∧
        env'.oo.qrWidth = env.oo.qrWidth ∧
        env'.oo.shape = env.oo.shape ∧
        env'.oo.imageEncoder = env.oo.imageEncoder) := by
  constructor
  · exact ⟨_, rfl, by simp [ColorTable.set]⟩
  · intro ch hc
    rw [WithBgColorRGBHex_eq ext hex ch hc]
    exact ⟨_, rfl, by simp [ColorTable.set]⟩

/-- The string `#0000ff` parses to blue, and the hex step makes the background
field and the `StateFalse` entry blue and leaves the foreground black. -/
theorem C9_bg_frame_witness :
    sampleExt.hexToRGBA "#0000ff" = .ok blue ∧
    ∃ env', (WithBgColorRGBHex sampleExt "#0000ff").apply sampleEnv = .done env' ∧
      env'.oo.bgColor = blue ∧
      env'._stateToRGBA .StateFalse = some blue ∧
      env'._stateToRGBA .StateTrue = some black ∧
      env'._stateToRGBA .StateFinder = some black ∧
      env'.oo.qrColor = black ∧
      env'.oo.logo = Image.nil ∧
      env'.oo.qrWidth = 20 ∧
      env'.oo.shape = IShape.rectangle ∧
      env'.oo.imageEncoder = ImageEncoder.jpegEncoder :=
  ⟨rfl, (C9_bg_frame sampleExt sampleEnv red "#0000ff").2 blue rfl⟩

/-- C10: every step that is not a colour step and does not panic (in-memory
logo, logo from a file whether or not the load succeeds, width, circle shape,
custom shape, built-in encoder of a recognised format, custom encoder) returns
with the whole colour table and the background and foreground fields as they
were. -/
theorem C10_non_color_frame (ext : Externals) (s : Step) (env : Env)
    (hcol : s.isColor = false) (hsup : s.unsupported = false) :
    ∃ env', (s.toOption ext).apply env = .done env' ∧
      env'._stateToRGBA = env._stateToRGBA ∧
      env'.oo.bgColor = env.oo.bgColor ∧
      env'.oo.qrColor = env.oo.qrColor := by
  cases s with
  | bgColor c => simp [Step.isColor] at hcol
  | bgColorRGBHex hex => simp [Step.isColor] at hcol
  | fgColor c => simp [Step.isColor] at hcol
  | fgColorRGBHex hex => simp [Step.isColor] at hcol
  | logoImage img => exact ⟨_, rfl, rfl, rfl, rfl⟩
  | logoImageFileJPEG f =>
    simp only [Step.toOption, WithLogoImageFileJPEG, newFuncDialOption, funcOption.apply]
    cases ext.osOpen f with
    | error err => exact ⟨_, rfl, rfl, rfl, rfl⟩
    | ok fd =>
      dsimp only
      cases ext.jpegDecode fd with
      | error err => exact ⟨_, rfl, rfl, rfl, rfl⟩
      | ok img => exact ⟨_, rfl, rfl, rfl, rfl⟩
  | logoImageFilePNG f =>
    simp only [Step.toOption, WithLogoImageFilePNG, newFuncDialOption, funcOption.apply]
    cases ext.osOpen f with
    | error err => exact ⟨_, rfl, rfl, rfl, rfl⟩
    | ok fd =>
      dsimp only
      cases ext.pngDecode fd with
      | error err => exact ⟨_, rfl, rfl, rfl, rfl⟩
      | ok img => exact ⟨_, rfl, rfl, rfl, rfl⟩
  | qrWidth width => exact ⟨_, rfl, rfl, rfl, rfl⟩
  | circleShape => exact ⟨_, rfl, rfl, rfl, rfl⟩
  | customShape shape => exact ⟨_, rfl, rfl, rfl, rfl⟩
  | builtinImageEncoder format =>
    cases format with
    | JPEG_FORMAT => exact ⟨_, rfl, rfl, rfl, rfl⟩
    | PNG_FORMAT => exact ⟨_, rfl, rfl, rfl, rfl⟩
    | other n => simp [Step.unsupported] at hsup
  | customImageEncoder encoder =>
    simp only [Step.toOption, WithCustomImageEncoder, newFuncDialOption, funcOption.apply]
    by_cases hnil : encoder = ImageEncoder.nil
    · exact ⟨_, if_pos hnil, rfl, rfl, rfl⟩
    · exact ⟨_, if_neg hnil, rfl, rfl, rfl⟩

/-- Loading `logo.png` as PNG succeeds and sets the logo, yet the table and the
two colour fields stay black on white. -/
theorem C10_non_color_frame_witness :
    (Step.logoImageFilePNG "logo.png").isColor = false ∧
    (Step.logoImageFilePNG "logo.png").unsupported = false ∧
    ∃ env', ((Step.logoImageFilePNG "logo.png").toOption sampleExt).apply sampleEnv = .done env' ∧
      env'._stateToRGBA = sampleEnv._stateToRGBA ∧
      env'.oo.bgColor = white ∧
      env'.oo.qrColor = black :=
  ⟨rfl, rfl, C10_non_color_frame sampleExt (.logoImageFilePNG "logo.png") sampleEnv rfl rfl⟩

/-! ## Width -/

/-- C11 (counterexample): `WithQRWidth(0)` is accepted and returns with the
width field 0, which is not positive. -/
theorem C11_width_zero_not_positive :
    ∃ env', (WithQRWidth 0).apply sampleEnv = .done env' ∧
      env'.oo.qrWidth = 0 ∧ ¬ (0 < env'.oo.qrWidth) :=
  ⟨_, rfl, rfl, by decide⟩

/-- C11 (amended): for every unsigned 8-bit argument, 0 included, the width step
returns with the width field equal to the argument, an integer from 0 to 255,
which is positive exactly when the argument is not 0. -/
theorem C11_width_equals_argument (width : uint8) (env : Env) :
    ∃ env', (WithQRWidth width).apply env = .done env' ∧
      env'.oo.qrWidth = (width.val : Int) ∧
      0 ≤ env'.oo.qrWidth ∧ env'.oo.qrWidth ≤ 255 ∧
      (0 < env'.oo.qrWidth ↔ width ≠ 0) := by
  refine ⟨_, rfl, rfl, ?_, ?_, ?_⟩
  · exact Int.ofNat_nonneg _
  · have := width.isLt
    show (width.val : Int) ≤ 255
    omega
  · show (0 : Int) < (width.val : Int) ↔ width ≠ 0
    rw [Ne, Fin.ext_iff]
    simp only [Fin.val_zero]
    omega

/-! ## Hex strings -/

/-- C15: the hex-string colour steps are the direct colour steps composed with
`hexToRGBA`: when `hexToRGBA` returns a colour for the string, the hex step has
the outcome of the direct step of that colour, for background and foreground
alike; when `hexToRGBA` panics, the hex step panics with the same value and the
state as it was. -/
theorem C15_hex_is_direct_after_parse (ext : Externals) (hex : String) (env : Env) :
    (∀ c : Color, ext.hexToRGBA hex = .ok c →
      (WithBgColorRGBHex ext hex).apply env = (WithBgColor c).apply env ∧
      (WithFgColorRGBHex ext hex).apply env = (WithFgColor c).apply env) ∧
    (∀ msg : String, ext.hexToRGBA hex = .error msg →
      (WithBgColorRGBHex ext hex).apply env = .panicked msg env ∧
      (WithFgColorRGBHex ext hex).apply env = .panicked msg env) := by
  constructor
  · intro c hc
    rw [WithBgColorRGBHex_eq ext hex c hc, WithFgColorRGBHex_eq ext hex c hc]
    exact ⟨rfl, rfl⟩
  · intro msg hm
    simp only [WithBgColorRGBHex, WithFgColorRGBHex, newFuncDialOption, funcOption.apply, hm,
      and_self]

/-- The string `#ff0000` gives the steps of red; the string `red` does not parse
and both hex steps panic on it. -/
theorem C15_hex_is_direct_after_parse_witness :
    sampleExt.hexToRGBA "#ff0000" = .ok red ∧
    ((WithBgColorRGBHex sampleExt "#ff0000").apply sampleEnv = (WithBgColor red).apply sampleEnv ∧
      (WithFgColorRGBHex sampleExt "#ff0000").apply sampleEnv =
        (WithFgColor red).apply sampleEnv) ∧
    sampleExt.hexToRGBA "red" = .error "invalid hex color: red" ∧
    ((WithBgColorRGBHex sampleExt "red").apply sampleEnv =
        .panicked "invalid hex color: red" sampleEnv ∧
      (WithFgColorRGBHex sampleExt "red").apply sampleEnv =
        .panicked "invalid hex color: red" sampleEnv) :=
  ⟨rfl, (C15_hex_is_direct_after_parse sampleExt "#ff0000" sampleEnv).1 red rfl,
    rfl, (C15_hex_is_direct_after_parse sampleExt "red" sampleEnv).2 _ rfl⟩

/-! ## Facts about the table -/

theorem ColorTable.set_set (m : ColorTable) (k : State) (v w : Color) :
    (m.set k v).set k w = m.set k w := by
  funext k'
  by_cases h : k' = k <;> simp [ColorTable.set, h]

theorem ColorTable.set_comm (m : ColorTable) (k1 k2 : State) (v1 v2 : Color) (h : k1 ≠ k2) :
    (m.set k1 v1).set k2 v2 = (m.set k2 v2).set k1 v1 := by
  funext k'
  by_cases h1 : k' = k1
  · subst h1
    simp [ColorTable.set, h]
  · by_cases h2 : k' = k2
    · subst h2
      simp [ColorTable.set, h1]
    · simp [ColorTable.set, h1, h2]

theorem ColorTable.set_fg_twice (m : ColorTable) (v w : Color) :
    (((m.set .StateTrue v).set .StateFinder v).set .StateTrue w).set .StateFinder w =
      (m.set .StateTrue w).set .StateFinder w := by
  funext k'
  cases k' <;> simp [ColorTable.set]

/-! ## Algebraic properties -/

/-- A step that is not a file-logo step and does not panic returns, and applied
again to the state it returned it returns that same state. -/
theorem step_idempotent (ext : Externals) (s : Step) (env : Env)
    (hfile : s.isFileLogo = false) (hpan : s.panics ext = false) :
    ∃ env', (s.toOption ext).apply env = .done env' ∧
      (s.toOption ext).apply env' = .done env' := by
  have hbg : ∀ (c : Color) (e : Env), (WithBgColor c).apply ((WithBgColor c).apply e).env =
      (WithBgColor c).apply e := by
    intro c e
    simp only [WithBgColor, newFuncDialOption, funcOption.apply, Outcome.env,
      ColorTable.set_set]
  have hfg : ∀ (c : Color) (e : Env), (WithFgColor c).apply ((WithFgColor c).apply e).env =
      (WithFgColor c).apply e := by
    intro c e
    simp only [WithFgColor, newFuncDialOption, funcOption.apply, Outcome.env,
      ColorTable.set_fg_twice]
  cases s with
  | bgColor c => exact ⟨_, rfl, hbg c env⟩
  | bgColorRGBHex hex =>
    obtain ⟨c, hc⟩ := hex_ok_of_not_panics_bg ext hex hpan
    rw [show (Step.bgColorRGBHex hex).toOption ext = WithBgColor c from
      WithBgColorRGBHex_eq ext hex c hc]
    exact ⟨_, rfl, hbg c env⟩
  | fgColor c => exact ⟨_, rfl, hfg c env⟩
  | fgColorRGBHex hex =>
    obtain ⟨c, hc⟩ := hex_ok_of_not_panics_fg ext hex hpan
    rw [show (Step.fgColorRGBHex hex).toOption ext = WithFgColor c from
      WithFgColorRGBHex_eq ext hex c hc]
    exact ⟨_, rfl, hfg c env⟩
  | logoImage img => exact ⟨_, rfl, rfl⟩
  | logoImageFileJPEG f => simp [Step.isFileLogo] at hfile
  | logoImageFilePNG f => simp [Step.isFileLogo] at hfile
  | qrWidth width => exact ⟨_, rfl, rfl⟩
  | circleShape => exact ⟨_, rfl, rfl⟩
  | customShape shape => exact ⟨_, rfl, rfl⟩
  | builtinImageEncoder format =>
    cases format with
    | JPEG_FORMAT => exact ⟨_, rfl, rfl⟩
    | PNG_FORMAT => exact ⟨_, rfl, rfl⟩
    | other n => simp [Step.panics] at hpan
  | customImageEncoder encoder =>
    by_cases hnil : encoder = ImageEncoder.nil
    · subst hnil
      exact ⟨env, rfl, rfl⟩
    · have h1 : ∀ e : Env, (WithCustomImageEncoder encoder).apply e =
          .done { e with oo := { e.oo with imageEncoder := encoder } } := by
        intro e
        simp [WithCustomImageEncoder, newFuncDialOption, funcOption.apply, hnil]
      exact ⟨_, h1 env, h1 _⟩

/-- C12: every colour, in-memory logo, width, shape and encoder step is
idempotent: applying it twice in a row has the outcome, configuration and table
included, of applying it once; when the step does not panic (its format is a
recognised one, its hex string one that parses) it returns, and applied again to
the state it returned it returns that same state; when it panics, it panics both
times with the state as it was. -/
theorem C12_step_idempotent (ext : Externals) (s : Step) (env : Env)
    (hfile : s.isFileLogo = false) :
    applyOptions (toOptions ext [s, s]) env = applyOptions (toOptions ext [s]) env ∧
    (s.panics ext = false →
      ∃ env', (s.toOption ext).apply env = .done env' ∧
        (s.toOption ext).apply env' = .done env') ∧
    (s.panics ext = true →
      ∃ msg, applyOptions (toOptions ext [s, s]) env = .panicked msg env) := by
  refine ⟨?_, fun hp => step_idempotent ext s env hfile hp, ?_⟩
  · cases hp : s.panics ext with
    | false =>
      obtain ⟨env', h1, h2⟩ := step_idempotent ext s env hfile hp
      simp only [toOptions, List.map_cons, List.map_nil, applyOptions, h1, h2]
    | true =>
      obtain ⟨msg, hstep⟩ := step_panics_state ext s hp
      simp only [toOptions, List.map_cons, List.map_nil, applyOptions, hstep]
  · intro hp
    obtain ⟨msg, hstep⟩ := step_panics_state ext s hp
    exact ⟨msg, by simp only [toOptions, List.map_cons, List.map_nil, applyOptions, hstep]⟩

/-- A blue foreground set twice is a blue foreground set once, directly or by
hex string; a hex string that does not parse panics once or twice alike. -/
theorem C12_step_idempotent_witness :
    (Step.fgColor blue).isFileLogo = false ∧
    applyOptions (toOptions sampleExt [Step.fgColor blue, Step.fgColor blue]) sampleEnv =
      applyOptions (toOptions sampleExt [Step.fgColor blue]) sampleEnv ∧
    (Step.fgColorRGBHex "#0000ff").panics sampleExt = false ∧
    (∃ env', ((Step.fgColorRGBHex "#0000ff").toOption sampleExt).apply sampleEnv = .done env' ∧
      ((Step.fgColorRGBHex "#0000ff").toOption sampleExt).apply env' = .done env') ∧
    (Step.fgColorRGBHex "bad").panics sampleExt = true ∧
    (∃ msg, applyOptions (toOptions sampleExt [Step.fgColorRGBHex "bad",
      Step.fgColorRGBHex "bad"]) sampleEnv = .panicked msg sampleEnv) :=
  ⟨rfl,
    (C12_step_idempotent sampleExt (.fgColor blue) sampleEnv rfl).1,
    rfl,
    (C12_step_idempotent sampleExt (.fgColorRGBHex "#0000ff") sampleEnv rfl).2.1 rfl,
    rfl,
    (C12_step_idempotent sampleExt (.fgColorRGBHex "bad") sampleEnv rfl).2.2 rfl⟩

theorem ColorTable.set_bg_fg_comm (m : ColorTable) (c d : Color) :
    ((m.set .StateTrue d).set .StateFinder d).set .StateFalse c =
      ((m.set .StateFalse c).set .StateTrue d).set .StateFinder d := by
  funext k'
  cases k' <;> simp [ColorTable.set]

theorem applyOptions_pair (a b : ImageOption) (e0 e1 e2 : Env)
    (ha : a.apply e0 = .done e1) (hb : b.apply e1 = .done e2) :
    applyOptions [a, b] e0 = .done e2 := by
  simp only [applyOptions, ha, hb]

/-- An encoder step that does not panic rewrites the encoder field by a function
of its old value and touches nothing else. -/
theorem encoder_step_effect (ext : Externals) (s : Step) (hg : s.group = some .encoder)
    (hpan : s.panics ext = false) :
    ∃ g : ImageEncoder → ImageEncoder, ∀ env : Env, (s.toOption ext).apply env =
      .done { env with oo := { env.oo with imageEncoder := g env.oo.imageEncoder } } := by
  cases s <;> simp only [Step.group, Option.some.injEq, reduceCtorEq] at hg
  case builtinImageEncoder format =>
    cases format with
    | JPEG_FORMAT => exact ⟨fun _ => .jpegEncoder, fun _ => rfl⟩
    | PNG_FORMAT => exact ⟨fun _ => .pngEncoder, fun _ => rfl⟩
    | other n => simp [Step.panics] at hpan
  case customImageEncoder encoder =>
    by_cases hnil : encoder = ImageEncoder.nil
    · subst hnil
      exact ⟨fun e => e, fun _ => rfl⟩
    · refine ⟨fun _ => encoder, fun env => ?_⟩
      simp [Step.toOption, WithCustomImageEncoder, newFuncDialOption, funcOption.apply, hnil]

/-- C13: of two steps that assign the same field unconditionally, applied in
order, only the later one counts: two in-memory logos, two widths, two built-in
encoders of recognised formats, a built-in encoder then a non-nil custom
encoder, and the reverse, each return the state that the later step alone
returns. -/
theorem C13_later_step_overrides (img1 img2 : Image) (w1 w2 : uint8) (f1 f2 : formatTyp)
    (encoder : ImageEncoder) (env : Env)
    (hf1 : f1 = formatTyp.JPEG_FORMAT ∨ f1 = formatTyp.PNG_FORMAT)
    (hf2 : f2 = formatTyp.JPEG_FORMAT ∨ f2 = formatTyp.PNG_FORMAT)
    (hne : encoder ≠ ImageEncoder.nil) :
    (∃ env', (WithLogoImage img2).apply env = .done env' ∧
      applyOptions [WithLogoImage img1, WithLogoImage img2] env = .done env') ∧
    (∃ env', (WithQRWidth w2).apply env = .done env' ∧
      applyOptions [WithQRWidth w1, WithQRWidth w2] env = .done env') ∧
    (∃ env', (WithBuiltinImageEncoder f2).apply env = .done env' ∧
      applyOptions [WithBuiltinImageEncoder f1, WithBuiltinImageEncoder f2] env = .done env') ∧
    (∃ env', (WithCustomImageEncoder encoder).apply env = .done env' ∧
      applyOptions [WithBuiltinImageEncoder f1, WithCustomImageEncoder encoder] env =
        .done env') ∧
    (∃ env', (WithBuiltinImageEncoder f2).apply env = .done env' ∧
      applyOptions [WithCustomImageEncoder encoder, WithBuiltinImageEncoder f2] env =
        .done env') := by
  have hc : ∀ e : Env, (WithCustomImageEncoder encoder).apply e =
      .done { e with oo := { e.oo with imageEncoder := encoder } } := by
    intro e
    simp [WithCustomImageEncoder, newFuncDialOption, funcOption.apply, hne]
  refine ⟨⟨_, rfl, rfl⟩, ⟨_, rfl, rfl⟩, ?_, ?_, ?_⟩
  · rcases hf1 with rfl | rfl <;> rcases hf2 with rfl | rfl <;> exact ⟨_, rfl, rfl⟩
  · rcases hf1 with rfl | rfl <;>
      exact ⟨_, hc env, applyOptions_pair _ _ _ _ _ rfl (hc _)⟩
  · rcases hf2 with rfl | rfl <;>
      exact ⟨_, rfl, applyOptions_pair _ _ _ _ _ (hc env) rfl⟩

/-- The second logo, the second width and the later encoder are what is left. -/
theorem C13_later_step_overrides_witness :
    (formatTyp.JPEG_FORMAT = formatTyp.JPEG_FORMAT ∨
      formatTyp.JPEG_FORMAT = formatTyp.PNG_FORMAT) ∧
    (formatTyp.PNG_FORMAT = formatTyp.JPEG_FORMAT ∨
      formatTyp.PNG_FORMAT = formatTyp.PNG_FORMAT) ∧
    ImageEncoder.custom 1 ≠ ImageEncoder.nil ∧
    (∃ env', (WithLogoImage (.bitmap 2)).apply sampleEnv = .done env' ∧
      applyOptions [WithLogoImage (.bitmap 1), WithLogoImage (.bitmap 2)] sampleEnv =
        .done env') ∧
    (∃ env', (WithQRWidth 7).apply sampleEnv = .done env' ∧
      applyOptions [WithQRWidth 3, WithQRWidth 7] sampleEnv = .done env') ∧
    (∃ env', (WithBuiltinImageEncoder .PNG_FORMAT).apply sampleEnv = .done env' ∧
      applyOptions [WithBuiltinImageEncoder .JPEG_FORMAT, WithBuiltinImageEncoder .PNG_FORMAT]
        sampleEnv = .done env') ∧
    (∃ env', (WithCustomImageEncoder (.custom 1)).apply sampleEnv = .done env' ∧
      applyOptions [WithBuiltinImageEncoder .JPEG_FORMAT, WithCustomImageEncoder (.custom 1)]
        sampleEnv = .done env') ∧
    (∃ env', (WithBuiltinImageEncoder .PNG_FORMAT).apply sampleEnv = .done env' ∧
      applyOptions [WithCustomImageEncoder (.custom 1), WithBuiltinImageEncoder .PNG_FORMAT]
        sampleEnv = .done env') :=
  ⟨Or.inl rfl, Or.inr rfl, by decide,
    C13_later_step_overrides (.bitmap 1) (.bitmap 2) 3 7 .JPEG_FORMAT .PNG_FORMAT (.custom 1)
      sampleEnv (Or.inl rfl) (Or.inr rfl) (by decide)⟩

/-- A step that does not panic has the option of a step that is not a hex step:
itself, or for a hex step the direct step of the colour its string parses to. -/
theorem direct_form (ext : Externals) (s : Step) (hpan : s.panics ext = false) :
    ∃ s' : Step, s'.toOption ext = s.toOption ext ∧ s'.group = s.group ∧
      s'.panics ext = false ∧
      (∀ hex, s' ≠ .bgColorRGBHex hex) ∧ (∀ hex, s' ≠ .fgColorRGBHex hex) := by
  cases s with
  | bgColorRGBHex hex =>
    obtain ⟨c, hc⟩ := hex_ok_of_not_panics_bg ext hex hpan
    exact ⟨.bgColor c, (WithBgColorRGBHex_eq ext hex c hc).symm, rfl, rfl, by simp, by simp⟩
  | fgColorRGBHex hex =>
    obtain ⟨c, hc⟩ := hex_ok_of_not_panics_fg ext hex hpan
    exact ⟨.fgColor c, (WithFgColorRGBHex_eq ext hex c hc).symm, rfl, rfl, by simp, by simp⟩
  | bgColor c => exact ⟨_, rfl, rfl, hpan, by simp, by simp⟩
  | fgColor c => exact ⟨_, rfl, rfl, hpan, by simp, by simp⟩
  | logoImage img => exact ⟨_, rfl, rfl, hpan, by simp, by simp⟩
  | logoImageFileJPEG f => exact ⟨_, rfl, rfl, hpan, by simp, by simp⟩
  | logoImageFilePNG f => exact ⟨_, rfl, rfl, hpan, by simp, by simp⟩
  | qrWidth width => exact ⟨_, rfl, rfl, hpan, by simp, by simp⟩
  | circleShape => exact ⟨_, rfl, rfl, hpan, by simp, by simp⟩
  | customShape shape => exact ⟨_, rfl, rfl, hpan, by simp, by simp⟩
  | builtinImageEncoder format => exact ⟨_, rfl, rfl, hpan, by simp, by simp⟩
  | customImageEncoder encoder => exact ⟨_, rfl, rfl, hpan, by simp, by simp⟩

/-- C16 (counterexample): a foreground hex step whose string `hexToRGBA` does
not parse and a width step are of different groups, yet the two orders differ:
hex step first, the run panics with the width field still 20; width step first,
it panics with the width field 5. -/
theorem C16_malformed_hex_order_matters :
    (Step.fgColorRGBHex "bad").group = some Group.foreground ∧
    (Step.qrWidth 5).group = some Group.width ∧
    Group.foreground ≠ Group.width ∧
    (∃ msg e1 e2,
      applyOptions (toOptions sampleExt [Step.fgColorRGBHex "bad", Step.qrWidth 5]) sampleEnv =
        .panicked msg e1 ∧
      applyOptions (toOptions sampleExt [Step.qrWidth 5, Step.fgColorRGBHex "bad"]) sampleEnv =
        .panicked msg e2 ∧
      e1.oo.qrWidth = 20 ∧ e2.oo.qrWidth = 5) ∧
    applyOptions (toOptions sampleExt [Step.fgColorRGBHex "bad", Step.qrWidth 5]) sampleEnv ≠
      applyOptions (toOptions sampleExt [Step.qrWidth 5, Step.fgColorRGBHex "bad"]) sampleEnv := by
  refine ⟨rfl, rfl, by decide, ⟨_, _, _, rfl, rfl, rfl, rfl⟩, ?_⟩
  intro h
  have hw := congrArg (fun o : Outcome => o.env.oo.qrWidth) h
  exact absurd hw (by decide)

/-- C16 (amended): two steps of different groups among background colour,
foreground colour, in-memory logo, width, shape and encoder, neither of which
panics (a hex string is one `hexToRGBA` parses, a format is a recognised one),
commute: applied in either order they return the same configuration, table and
output. -/
theorem C16_different_groups_commute (ext : Externals) (s t : Step) (env : Env)
    (g1 g2 : Group) (hs : s.group = some g1) (ht : t.group = some g2) (hne : g1 ≠ g2)
    (hpan_s : s.panics ext = false) (hpan_t : t.panics ext = false) :
    ∃ env', applyOptions (toOptions ext [s, t]) env = .done env' ∧
      applyOptions (toOptions ext [t, s]) env = .done env' := by
  obtain ⟨s', hso, hsg, hsp, hs1, hs2⟩ := direct_form ext s hpan_s
  obtain ⟨t', hto, htg, htp, ht1, ht2⟩ := direct_form ext t hpan_t
  have e1 : toOptions ext [s, t] = toOptions ext [s', t'] := by
    simp only [toOptions, List.map_cons, List.map_nil, hso, hto]
  have e2 : toOptions ext [t, s] = toOptions ext [t', s'] := by
    simp only [toOptions, List.map_cons, List.map_nil, hso, hto]
  rw [e1, e2]
  rw [← hsg] at hs
  rw [← htg] at ht
  by_cases hse : s'.group = some .encoder
  · obtain ⟨g, hg⟩ := encoder_step_effect ext s' hse hsp
    have hte : t'.group ≠ some .encoder := by
      rw [ht]
      rw [hs] at hse
      intro h
      exact hne ((Option.some.inj hse).trans (Option.some.inj h).symm)
    cases t' <;> simp only [Step.group, ne_eq, not_true_eq_false, reduceCtorEq] at hte ht
    all_goals
      first
      | exact absurd rfl (ht1 _)
      | exact absurd rfl (ht2 _)
      | exact ⟨_, applyOptions_pair _ _ _ _ _ (hg _) rfl,
          applyOptions_pair _ _ _ _ _ rfl (hg _)⟩
  · by_cases hte : t'.group = some .encoder
    · obtain ⟨g, hg⟩ := encoder_step_effect ext t' hte htp
      cases s' <;> simp only [Step.group, ne_eq, not_true_eq_false, reduceCtorEq] at hse hs
      all_goals
        first
        | exact absurd rfl (hs1 _)
        | exact absurd rfl (hs2 _)
        | exact ⟨_, applyOptions_pair _ _ _ _ _ rfl (hg _),
            applyOptions_pair _ _ _ _ _ (hg _) rfl⟩
    · cases s' <;> cases t' <;>
        simp only [Step.group, Option.some.injEq, reduceCtorEq, not_true_eq_false]
          at hs ht hse hte <;>
        first
        | exact absurd rfl (hs1 _)
        | exact absurd rfl (hs2 _)
        | exact absurd rfl (ht1 _)
        | exact absurd rfl (ht2 _)
        | exact absurd (hs.symm.trans ht) hne
        | exact ⟨_, rfl, rfl⟩
        | exact ⟨_, rfl, congrArg Outcome.done (by simp only [ColorTable.set_bg_fg_comm])⟩

/-- A red foreground and a blue background by hex string, in either order. -/
theorem C16_different_groups_commute_witness :
    (Step.fgColor red).group = some Group.foreground ∧
    (Step.bgColorRGBHex "#0000ff").group = some Group.background ∧
    Group.foreground ≠ Group.background ∧
    (Step.fgColor red).panics sampleExt = false ∧
    (Step.bgColorRGBHex "#0000ff").panics sampleExt = false ∧
    ∃ env', applyOptions (toOptions sampleExt [Step.fgColor red, Step.bgColorRGBHex "#0000ff"])
        sampleEnv = .done env' ∧
      applyOptions (toOptions sampleExt [Step.bgColorRGBHex "#0000ff", Step.fgColor red])
        sampleEnv = .done env' :=
  ⟨rfl, rfl, by decide, rfl, rfl,
    C16_different_groups_commute sampleExt (.fgColor red) (.bgColorRGBHex "#0000ff") sampleEnv
      .foreground .background rfl rfl (by decide) rfl rfl⟩

/-! ## The table is shared -/

/-- C14: with two configurations `a` and `b` over the one table, a foreground
step applied to `a` with a colour other than the foreground field of `b`
returns, sets the `StateTrue` and `StateFinder` entries to that colour and
leaves `b` as it was, so both entries differ from the foreground field of `b`;
likewise a background step applied to `a` with a colour other than the
background field of `b` makes the `StateFalse` entry differ from the background
field of `b`. -/
theorem C14_shared_table_disagrees (w : Shared) (cf cb : Color)
    (hfg : cf ≠ w.b.qrColor) (hbg : cb ≠ w.b.bgColor) :
    ((∃ env', (WithFgColor cf).apply w.viewA = .done env') ∧
      (w.applyToA (WithFgColor cf))._stateToRGBA .StateTrue = some cf ∧
      (w.applyToA (WithFgColor cf))._stateToRGBA .StateFinder = some cf ∧
      (w.applyToA (WithFgColor cf)).b = w.b ∧
      (w.applyToA (WithFgColor cf))._stateToRGBA .StateTrue ≠
        some (w.applyToA (WithFgColor cf)).b.qrColor ∧
      (w.applyToA (WithFgColor cf))._stateToRGBA .StateFinder ≠
        some (w.applyToA (WithFgColor cf)).b.qrColor) ∧
    ((∃ env', (WithBgColor cb).apply w.viewA = .done env') ∧
      (w.applyToA (WithBgColor cb))._stateToRGBA .StateFalse = some cb ∧
      (w.applyToA (WithBgColor cb)).b = w.b ∧
      (w.applyToA (WithBgColor cb))._stateToRGBA .StateFalse ≠
        some (w.applyToA (WithBgColor cb)).b.bgColor) := by
  have tT : (w.applyToA (WithFgColor cf))._stateToRGBA .StateTrue = some cf := by
    simp [Shared.applyToA, Shared.viewA, WithFgColor, newFuncDialOption, funcOption.apply,
      Outcome.env, ColorTable.set]
  have tF : (w.applyToA (WithFgColor cf))._stateToRGBA .StateFinder = some cf := by
    simp [Shared.applyToA, Shared.viewA, WithFgColor, newFuncDialOption, funcOption.apply,
      Outcome.env, ColorTable.set]
  have tB : (w.applyToA (WithBgColor cb))._stateToRGBA .StateFalse = some cb := by
    simp [Shared.applyToA, Shared.viewA, WithBgColor, newFuncDialOption, funcOption.apply,
      Outcome.env, ColorTable.set]
  have bF : (w.applyToA (WithFgColor cf)).b = w.b := rfl
  have bB : (w.applyToA (WithBgColor cb)).b = w.b := rfl
  refine ⟨⟨⟨_, rfl⟩, tT, tF, bF, ?_, ?_⟩, ⟨⟨_, rfl⟩, tB, bB, ?_⟩⟩
  · rw [tT, bF]
    exact fun h => hfg (Option.some.inj h)
  · rw [tF, bF]
    exact fun h => hfg (Option.some.inj h)
  · rw [tB, bB]
    exact fun h => hbg (Option.some.inj h)

/-- Both configurations are black on white; after a red foreground and a blue
background on the first, the table is red on blue and the second still says
black on white. -/
theorem C14_shared_table_disagrees_witness :
    red ≠ sampleShared.b.qrColor ∧ blue ≠ sampleShared.b.bgColor ∧
    (sampleShared.applyToA (WithFgColor red))._stateToRGBA .StateTrue = some red ∧
    (sampleShared.applyToA (WithFgColor red)).b.qrColor = black ∧
    (sampleShared.applyToA (WithFgColor red))._stateToRGBA .StateTrue ≠
      some (sampleShared.applyToA (WithFgColor red)).b.qrColor ∧
    (sampleShared.applyToA (WithBgColor blue))._stateToRGBA .StateFalse = some blue ∧
    (sampleShared.applyToA (WithBgColor blue)).b.bgColor = white ∧
    (sampleShared.applyToA (WithBgColor blue))._stateToRGBA .StateFalse ≠
      some (sampleShared.applyToA (WithBgColor blue)).b.bgColor :=
  ⟨by decide, by decide,
    (C14_shared_table_disagrees sampleShared red blue (by decide) (by decide)).1.2.1,
    rfl,
    (C14_shared_table_disagrees sampleShared red blue (by decide) (by decide)).1.2.2.2.2.1,
    (C14_shared_table_disagrees sampleShared red blue (by decide) (by decide)).2.2.1,
    rfl,
    (C14_shared_table_disagrees sampleShared red blue (by decide) (by decide)).2.2.2.2⟩

/-! ## Agreement of the colour fields with the table -/

/-- Any step, panicking or not, carries the agreement of the colour fields with
the table from the state before it to the state after it. -/
theorem colorsAgree_step (ext : Externals) (s : Step) (env : Env) (h : colorsAgree env) :
    colorsAgree ((s.toOption ext).apply env).env := by
  cases hsup : s.panics ext with
  | false =>
    obtain ⟨env', hstep, h1, h2, h3, h4, h5, _⟩ := step_effect ext s env hsup
    obtain ⟨a1, a2, a3⟩ := h
    rw [hstep]
    refine ⟨?_, ?_, ?_⟩
    · show env'._stateToRGBA .StateFalse = some env'.oo.bgColor
      rw [h1, h2]
      cases Step.bgOf ext s <;> simp [a1]
    · show env'._stateToRGBA .StateTrue = some env'.oo.qrColor
      rw [h3, h4]
      cases Step.fgOf ext s <;> simp [a2]
    · show env'._stateToRGBA .StateFinder = some env'.oo.qrColor
      rw [h3, h5]
      cases Step.fgOf ext s <;> simp [a3]
  | true =>
    obtain ⟨msg, hstep⟩ := step_panics_state ext s hsup
    rw [hstep env]
    exact h

/-- C17: when the colour fields and the table agree (background field =
`StateFalse` entry, foreground field = `StateTrue` entry = `StateFinder` entry),
they still agree after any option step, and a step that does not panic returns
such a state; a background step makes the background part hold and a
foreground step the foreground part, from any state whatever. -/
theorem C17_colors_agree_preserved (ext : Externals) (s : Step) (env : Env)
    (h : colorsAgree env) :
    colorsAgree ((s.toOption ext).apply env).env ∧
    (s.panics ext = false →
      ∃ env', (s.toOption ext).apply env = .done env' ∧ colorsAgree env') ∧
    (∀ e0 : Env, (s.bgOf ext).isSome = true →
      ((s.toOption ext).apply e0).env._stateToRGBA .StateFalse =
        some ((s.toOption ext).apply e0).env.oo.bgColor) ∧
    (∀ e0 : Env, (s.fgOf ext).isSome = true →
      ((s.toOption ext).apply e0).env._stateToRGBA .StateTrue =
        some ((s.toOption ext).apply e0).env.oo.qrColor ∧
      ((s.toOption ext).apply e0).env._stateToRGBA .StateFinder =
        some ((s.toOption ext).apply e0).env.oo.qrColor) := by
  refine ⟨colorsAgree_step ext s env h, ?_, ?_, ?_⟩
  · intro hsup
    obtain ⟨env', hstep, _⟩ := step_effect ext s env hsup
    refine ⟨env', hstep, ?_⟩
    have := colorsAgree_step ext s env h
    rwa [hstep] at this
  · intro e0 hb
    cases s <;> simp only [Step.bgOf, Option.isSome_none, Option.isSome_some,
      Bool.false_eq_true] at hb
    case bgColor c =>
      simp [Step.toOption, WithBgColor, newFuncDialOption, funcOption.apply, Outcome.env,
        ColorTable.set]
    case bgColorRGBHex hex =>
      cases hc : ext.hexToRGBA hex with
      | error msg => simp [hc] at hb
      | ok c =>
        simp [Step.toOption, WithBgColorRGBHex, newFuncDialOption, funcOption.apply,
          Outcome.env, ColorTable.set, hc]
  · intro e0 hf
    cases s <;> simp only [Step.fgOf, Option.isSome_none, Option.isSome_some,
      Bool.false_eq_true] at hf
    case fgColor c =>
      simp [Step.toOption, WithFgColor, newFuncDialOption, funcOption.apply, Outcome.env,
        ColorTable.set]
    case fgColorRGBHex hex =>
      cases hc : ext.hexToRGBA hex with
      | error msg => simp [hc] at hf
      | ok c =>
        simp [Step.toOption, WithFgColorRGBHex, newFuncDialOption, funcOption.apply,
          Outcome.env, ColorTable.set, hc]

/-- The sample state agrees, and still does after a red foreground. -/
theorem C17_colors_agree_preserved_witness :
    colorsAgree sampleEnv ∧
    colorsAgree (((Step.fgColor red).toOption sampleExt).apply sampleEnv).env ∧
    (((Step.fgColor red).toOption sampleExt).apply sampleEnv).env.oo.qrColor = red ∧
    (Step.fgColor red).panics sampleExt = false ∧
    (∃ env', ((Step.fgColor red).toOption sampleExt).apply sampleEnv = .done env' ∧
      colorsAgree env') ∧
    (Step.fgOf sampleExt (.fgColor red)).isSome = true ∧
    (((Step.fgColor red).toOption sampleExt).apply sampleEnv).env._stateToRGBA .StateFinder =
      some red :=
  ⟨by decide,
    (C17_colors_agree_preserved sampleExt (.fgColor red) sampleEnv (by decide)).1,
    rfl, rfl,
    (C17_colors_agree_preserved sampleExt (.fgColor red) sampleEnv (by decide)).2.1 rfl,
    rfl,
    ((C17_colors_agree_preserved sampleExt (.fgColor red) sampleEnv (by decide)).2.2.2
      sampleEnv rfl).2⟩

end QRCode
